import Mathlib

/-!
Shallow embedding of the bulk-import pipeline of the medisupply inventory
services: the Import Submission Handler (`ProductImportService` in
`micro-inventarios/services/product_import_service.py`), the Job History
model and repository (`models/product_processed_history.py`,
`repositories/product_processed_history_repository.py`), and the Import
Consumer (`app/services/product_file_processor_service.py` together with
`app/controllers/product_processor_controller.py`).

Python strings become `String`, per-row tabular data becomes association
lists from column name to an optional cell (`none` models a NaN cell; a
missing key models a missing column), timestamps become abstract `Nat`
instants, exceptions become `Except String`, and the external
collaborators (pandas parsing, Cloud Storage, Pub/Sub, scalar coercions,
SQLAlchemy-level failures) become explicit oracles threaded through the
definitions, so that the control flow and state updates of the Python
source are reproduced step for step.
-/

set_option autoImplicit false

deriving instance DecidableEq for Except

namespace MediSupply

/-- Embeds Python `str.lower` for one character (ASCII case folding:
`A`–`Z` maps to `a`–`z`, anything else is unchanged). -/
def lowerChar (c : Char) : Char :=
  if 65 ≤ c.toNat ∧ c.toNat ≤ 90 then Char.ofNat (c.toNat + 32) else c

/-- Embeds Python `str.lower` on a whole string. -/
def strLower (s : String) : String :=
  String.mk (s.toList.map lowerChar)

/-- Is there a dot among the characters?  Embeds Python `'.' in s`. -/
def hasDot : List Char → Bool
  | [] => false
  | c :: cs => c == '.' || hasDot cs

/-- The suffix after the last occurrence of a dot, or the whole list when
no dot occurs: embeds the Python idiom `s.split('.')[-1]`. -/
def afterLastDot : List Char → List Char
  | [] => []
  | c :: cs =>
    if hasDot cs then afterLastDot cs
    else if c == '.' then cs
    else c :: cs

/-- The part strictly before the last dot: together with `afterLastDot`
this embeds Python `s.rsplit('.', 1)` on a string that contains a dot. -/
def beforeLastDot : List Char → List Char
  | [] => []
  | c :: cs =>
    if hasDot cs then c :: beforeLastDot cs
    else []

/-- Embeds `filename.lower().split('.')[-1]`, the extension extraction used
both by the Submission Handler (`_validate_file_type`,
`_validate_records_count`) and by the Import Consumer
(`_process_file_content`). -/
def extOf (s : String) : String :=
  String.mk (afterLastDot (s.toList.map lowerChar))

/-- Embeds `ProductImportService._generate_new_filename`: split off
`base`/`ext` with `rsplit('.', 1)` when the name has a dot (else
`base := name`, `ext := ''`), then — guarded by the source's
`if extension:` truthiness test — emit `<base>_<uuid>.<ext>` for a
non-empty extension and plain `<base>_<uuid>` otherwise (so a name
ending in a dot, whose extension is empty, gets no dot appended).  The
generated UUID is a parameter. -/
def generateNewFilename (uuid : String) (original : String) : String :=
  let baseName :=
    if hasDot original.toList then String.mk (beforeLastDot original.toList)
    else original
  let extension :=
    if hasDot original.toList then String.mk (afterLastDot original.toList)
    else ""
  if extension ≠ "" then baseName ++ "_" ++ uuid ++ "." ++ extension
  else baseName ++ "_" ++ uuid

/-- Splits a character list at every occurrence of a separator character;
embeds Python `s.split(sep)` for a one-character separator. -/
def splitOnChar (sep : Char) : List Char → List (List Char)
  | [] => [[]]
  | c :: cs =>
    match splitOnChar sep cs with
    | [] => [[]]
    | g :: gs => if c = sep then [] :: g :: gs else (c :: g) :: gs

/-- Embeds Python `str.strip` (drop leading and trailing whitespace). -/
def strTrim (s : String) : String :=
  String.mk
    ((((s.toList.dropWhile Char.isWhitespace).reverse).dropWhile
        Char.isWhitespace).reverse)

/-- Embeds `expiration_date_str.replace('Z', '+00:00')` from
`_create_product_from_row`. -/
def replaceZchars : List Char → List Char
  | [] => []
  | c :: cs =>
    if c = 'Z' then '+' :: '0' :: '0' :: ':' :: '0' :: '0' :: replaceZchars cs
    else c :: replaceZchars cs

/-- String-level wrapper of `replaceZchars`. -/
def replaceZ (s : String) : String :=
  String.mk (replaceZchars s.toList)

/-- Does `l` start with the pattern `p`?  Helper for suffix checks. -/
def startsWithChars : List Char → List Char → Bool
  | [], _ => true
  | _ :: _, [] => false
  | p :: ps, c :: cs => p = c && startsWithChars ps cs

/-- Embeds Python `s.endswith(suffix)`. -/
def endsWithChars (suffix : List Char) (l : List Char) : Bool :=
  startsWithChars suffix.reverse l.reverse

/--
The `ProductProcessedHistory` domain model (one ImportJob record), from
`micro-inventarios/models/product_processed_history.py`.  `status` is the
raw stored string: `"En curso"` is the spec's Pending, `"Finalizado"` its
Finalized, `"Error"` its Failed.  `id` is `none` until the repository
assigns a UUID; timestamps are abstract `Nat` instants.
-/
structure Job where
  id : Option String
  file_name : String
  user_id : String
  status : String
  result : Option String
  created_at : Nat
  updated_at : Option Nat
deriving Repr, DecidableEq

/-- Embeds `ProductProcessedHistory.validate`: the checks run in source
order and the first violated rule raises `ValueError` with its message. -/
def validateHistory (h : Job) : Except String Unit :=
  if h.file_name = "" then .error "El nombre del archivo es obligatorio"
  else if h.user_id = "" then .error "El ID del usuario es obligatorio"
  else if h.status = "" then .error "El estado es obligatorio"
  else if h.file_name.length > 100 then
    .error "El nombre del archivo no puede exceder 100 caracteres"
  else if h.user_id.length > 36 then
    .error "El ID del usuario no puede exceder 36 caracteres"
  else if h.status.length > 20 then
    .error "El estado no puede exceder 20 caracteres"
  else .ok ()

/-- The field bounds of the model stated declaratively (the property the
validation is meant to decide). -/
def boundsOk (h : Job) : Prop :=
  h.file_name ≠ "" ∧ h.file_name.length ≤ 100 ∧
  h.user_id ≠ "" ∧ h.user_id.length ≤ 36 ∧
  h.status ≠ "" ∧ h.status.length ≤ 20

instance (h : Job) : Decidable (boundsOk h) := by
  unfold boundsOk; infer_instance

/-- The Job History Store: the `products_processed_history` table as the
ordered list of its rows. -/
abbrev JobStore := List Job

/-- Embeds the repository query `filter(id == history_id).first()`. -/
def getById (s : JobStore) (i : String) : Option Job :=
  s.find? (fun j => j.id == some i)

/-- The field rewrite performed by `ProductProcessedHistoryRepository.update`
on the matched database row: `file_name`, `user_id`, `status` and `result`
are taken from the incoming model and `updated_at` is stamped with the
current instant; `id` and `created_at` stay. -/
def writeFields (j : Job) (h : Job) (now : Nat) : Job :=
  { j with file_name := h.file_name, user_id := h.user_id,
           status := h.status, result := h.result, updated_at := some now }

/-- Rewrites the first stored row whose id matches the incoming model,
leaving every other row alone (the repository updates the `.first()`
match and commits). -/
def updateFirst (now : Nat) (h : Job) : JobStore → JobStore
  | [] => []
  | j :: js =>
    if j.id == h.id then writeFields j h now :: js
    else j :: updateFirst now h js

/-- Embeds `ProductProcessedHistoryRepository.create`: validate first (a
`ValueError` escapes before any write), then assign a UUID when the model
has none, then insert; a database-level failure (`SQLAlchemyError`,
injected through `dbFail`) is re-raised wrapped and also leaves the store
unchanged.  The consumer-side copy of this repository is not under `src/`;
modelled from the spec (§3 Job History Store) and this submission-side
module, which the spec treats as the same store. -/
def historyCreate (dbFail : Option String) (uuid : String) (s : JobStore)
    (h : Job) : JobStore × Except String Job :=
  match validateHistory h with
  | .error m => (s, .error m)
  | .ok _ =>
    let h' : Job :=
      match h.id with
      | none => { h with id := some uuid }
      | some i => if i = "" then { h with id := some uuid } else h
    match dbFail with
    | some m => (s, .error ("Error al crear registro de historial: " ++ m))
    | none => (s ++ [h'], .ok h')

/-- Embeds `ProductProcessedHistoryRepository.update`: validate first (a
`ValueError` escapes before any write), then rewrite the first matching
row (no-op when the id is absent), stamping `updated_at`; a
database-level failure is re-raised wrapped with the store unchanged. -/
def historyUpdate (dbFail : Option String) (now : Nat) (s : JobStore)
    (h : Job) : JobStore × Except String Job :=
  match validateHistory h with
  | .error m => (s, .error m)
  | .ok _ =>
    match dbFail with
    | some m => (s, .error ("Error al actualizar registro de historial: " ++ m))
    | none => (updateFirst now h s, .ok h)

/-- Embeds `ProductProcessedHistoryRepository.get_by_id` with an injectable
database failure (`SQLAlchemyError` wrapped and re-raised). -/
def historyGetById (dbFail : Option String) (s : JobStore) (i : String) :
    Except String (Option Job) :=
  match dbFail with
  | some m =>
    .error ("Error al obtener registro de historial por ID: " ++ m)
  | none => .ok (getById s i)

/--
The catalog entity (the source's `Product`), one record per successfully
ingested row.  Quantity is an integer, price a rational (the claims never
depend on floating-point behaviour), the expiry an abstract instant.
-/
structure Product where
  sku : String
  name : String
  expiration_date : Nat
  quantity : Int
  price : Rat
  location : String
  description : String
  product_type : String
  provider_id : String
  photo_filename : Option String
  photo_url : Option String
deriving Repr, DecidableEq

/-- The regex `^MED-\d{4}$` of `_validate_sku`. -/
def skuPatternOk (s : String) : Bool :=
  match s.toList with
  | 'M' :: 'E' :: 'D' :: '-' :: rest => rest.length = 4 && rest.all Char.isDigit
  | _ => false

/-- One character of the name alphabet `[a-zA-Z0-9\sáéíóúÁÉÍÓÚñÑüÜ]`. -/
def nameCharOk (c : Char) : Bool :=
  c.isAlphanum || c.isWhitespace ||
    c ∈ ['á', 'é', 'í', 'ó', 'ú', 'Á', 'É', 'Í', 'Ó', 'Ú', 'ñ', 'Ñ', 'ü', 'Ü']

/-- The regex `^[A-Z]-\d{2}-\d{2}$` of `_validate_location`. -/
def locationPatternOk (s : String) : Bool :=
  match s.toList with
  | [p, '-', a, b, '-', c, d] =>
    ('A' ≤ p && p ≤ 'Z') && a.isDigit && b.isDigit && c.isDigit && d.isDigit
  | _ => false

/-- One lowercase hexadecimal digit. -/
def hexLowerOk (c : Char) : Bool :=
  c.isDigit || ('a' ≤ c && c ≤ 'f')

/-- The UUID shape check of `_validate_provider_id`: the lowercased id
matches `^[0-9a-f]{8}-[0-9a-f]{4}-[0-9a-f]{4}-[0-9a-f]{4}-[0-9a-f]{12}$`. -/
def uuidPatternOk (s : String) : Bool :=
  let groups := splitOnChar '-' (s.toList.map lowerChar)
  groups.map List.length = [8, 4, 4, 4, 12] &&
    groups.all (fun g => g.all hexLowerOk)

/-- The photo-extension check of `_validate_photo_filename`: the lowercased
filename must end with one of `.jpg`, `.jpeg`, `.png`, `.gif`. -/
def photoPatternOk (f : String) : Bool :=
  let low := (strLower f).toList
  endsWithChars ".jpg".toList low || endsWithChars ".jpeg".toList low ||
    endsWithChars ".png".toList low || endsWithChars ".gif".toList low

/-- Embeds `Product.validate` running its nine field checks in source
order, raising the first violated rule's `ValueError` message.  The
consumer-side `app/models/product.py` is not under `src/`; modelled from
the spec (§3 CatalogEntity invariants) and the submission-side
`micro-inventarios/models/product.py`, whose rules the spec describes. -/
def productValidate (now : Nat) (p : Product) : Except String Unit :=
  if p.sku = "" then .error "El SKU es obligatorio"
  else if ¬ skuPatternOk p.sku then
    .error "El SKU debe seguir el formato MED-XXXX (4 dígitos numéricos)"
  else if p.name = "" then .error "El nombre es obligatorio"
  else if (strTrim p.name).length < 3 then
    .error "El nombre debe tener al menos 3 caracteres"
  else if ¬ (p.name ≠ "" && p.name.toList.all nameCharOk) then
    .error "El nombre debe contener únicamente caracteres alfanuméricos, espacios y tildes"
  else if ¬ decide (p.expiration_date > now) then
    .error "La fecha de vencimiento debe ser posterior a la fecha actual"
  else if p.quantity < 1 ∨ p.quantity > 9999 then
    .error "La cantidad debe estar entre 1 y 9999"
  else if p.price ≤ 0 then
    .error "El precio debe ser un valor positivo"
  else if p.location = "" then .error "La ubicación es obligatoria"
  else if ¬ locationPatternOk p.location then
    .error "La ubicación debe seguir el formato P-EE-NN (Pasillo: A-Z, Estante: 01-99, Nivel: 01-99)"
  else if p.product_type = "" then .error "El tipo de producto es obligatorio"
  else if ¬ (p.product_type = "Alto valor" ∨ p.product_type = "Seguridad" ∨
             p.product_type = "Cadena fría") then
    .error "El tipo de producto debe ser: Alto valor, Seguridad o Cadena fría"
  else if p.provider_id = "" then .error "El ID del proveedor es obligatorio"
  else if ¬ uuidPatternOk p.provider_id then
    .error "El ID del proveedor debe ser un UUID válido"
  else
    match p.photo_filename with
    | some f =>
      if ¬ photoPatternOk f then
        .error "La foto debe ser un archivo JPG, PNG o GIF"
      else .ok ()
    | none => .ok ()

/-- The Catalog Store: the `products` table as the ordered list of its
rows. -/
abbrev ProductStore := List Product

/-- The Catalog Store's create operation: re-validate the candidate, then
insert, enforcing `sku` uniqueness at the store (the table's unique
constraint surfaces as a wrapped database error).  The consumer-side
`app/repositories/product_repository.py` is not under `src/`; modelled
from the spec (§3: uniqueness enforced by the Catalog Store before
insert) and the submission-side repository. -/
def productCreate (now : Nat) (s : ProductStore) (p : Product) :
    Except String ProductStore :=
  match productValidate now p with
  | .error m => .error m
  | .ok _ =>
    if s.any (fun q => q.sku == p.sku) then
      .error ("Error al crear producto: duplicate key value violates unique constraint on sku " ++ p.sku)
    else .ok (s ++ [p])

/--
One parsed data row: an association list from column name to cell.  A
missing key models a column absent from the file (`row[c]` raises
`KeyError`); `some none` models a present cell holding NaN; `some (some
v)` a present cell whose `str()` is `v`.
-/
abbrev Row := List (String × Option String)

/-- Embeds `row[c]` lookup success and `row.get(c)`: the first binding for
the column, if any. -/
def rowGet (r : Row) (c : String) : Option (Option String) :=
  (r.find? (fun p => p.1 == c)).map Prod.snd

/-- Embeds Python `str(cell)`: NaN prints as `"nan"`. -/
def strCell : Option String → String
  | none => "nan"
  | some s => s

/-- The scalar-coercion oracles of the row mapping: the two-stage date
parse (`datetime.fromisoformat` after the `Z` rewrite, then
`pd.to_datetime` on the raw cell), `int(...)` and `float(...)`. -/
structure ParseEnv where
  fromIso : String → Option Nat
  toDatetime : Option String → Option Nat
  toInt : Option String → Except String Int
  toFloat : Option String → Except String Rat

/-- The permissive expiry parse of `_create_product_from_row`: strict ISO
first (on the string with `Z` replaced), then the locale-flexible
fallback on the raw cell. -/
def parseDateCell (env : ParseEnv) (dateStr : String) (cell : Option String) :
    Option Nat :=
  match env.fromIso (replaceZ dateStr) with
  | some d => some d
  | none => env.toDatetime cell

/-- The `ValueError` text wrapping a `KeyError` in
`_create_product_from_row` (`str(KeyError(c))` quotes the key). -/
def keyErrorMsg (c : String) : String :=
  "Columna requerida no encontrada: \x27" ++ c ++ "\x27"

/-- The description mapping: `str(row['description']).strip() if
pd.notna(row.get('description')) else ''` — a missing or NaN description
becomes the empty string without touching `row['description']`. -/
def descField (row : Row) : String :=
  match rowGet row "description" with
  | some (some s) => strTrim s
  | _ => ""

/-- The optional media mapping: present, non-NaN and not the literal empty
string, else `None`. -/
def optField (row : Row) (c : String) : Option String :=
  match rowGet row c with
  | some (some s) => if s = "" then none else some (strTrim s)
  | _ => none

/-- Embeds `_create_product_from_row`: column accesses, the expiry parse
and the scalar coercions happen in the source's evaluation order
(`expiration_date` first, then the constructor arguments left to right);
the first failure wins.  A `KeyError` becomes `ValueError` citing the
column; a failed two-stage date parse becomes the
`Formato de fecha inválido` error re-wrapped by `except ValueError`;
coercion failures are re-wrapped the same way. -/
def createProductFromRow (env : ParseEnv) (row : Row) : Except String Product :=
  match rowGet row "expiration_date" with
  | none => .error (keyErrorMsg "expiration_date")
  | some dateCell =>
    let dateStr := strCell dateCell
    match parseDateCell env dateStr dateCell with
    | none => .error ("Error de validación: Formato de fecha inválido: " ++ dateStr)
    | some expirationDate =>
      match rowGet row "sku" with
      | none => .error (keyErrorMsg "sku")
      | some skuCell =>
      match rowGet row "name" with
      | none => .error (keyErrorMsg "name")
      | some nameCell =>
      match rowGet row "quantity" with
      | none => .error (keyErrorMsg "quantity")
      | some qtyCell =>
      match env.toInt qtyCell with
      | .error m => .error ("Error de validación: " ++ m)
      | .ok quantity =>
      match rowGet row "price" with
      | none => .error (keyErrorMsg "price")
      | some priceCell =>
      match env.toFloat priceCell with
      | .error m => .error ("Error de validación: " ++ m)
      | .ok price =>
      match rowGet row "location" with
      | none => .error (keyErrorMsg "location")
      | some locCell =>
      match rowGet row "product_type" with
      | none => .error (keyErrorMsg "product_type")
      | some typeCell =>
      match rowGet row "provider_id" with
      | none => .error (keyErrorMsg "provider_id")
      | some provCell =>
        .ok
          { sku := strTrim (strCell skuCell)
            name := strTrim (strCell nameCell)
            expiration_date := expirationDate
            quantity := quantity
            price := price
            location := strTrim (strCell locCell)
            description := descField row
            product_type := strTrim (strCell typeCell)
            provider_id := strTrim (strCell provCell)
            photo_filename := optField row "photo_filename"
            photo_url := optField row "photo_url" }

/--
The external collaborators of the Import Consumer: the Cloud Storage
download (`filename`, `folder` → raw content), the two pandas readers,
the scalar-coercion oracles, the Catalog Store create, and the configured
processed-products folder.
-/
structure ConsumerEnv where
  download : String → String → Except String String
  readCsv : String → Except String (List Row)
  readExcel : String → Except String (List Row)
  parse : ParseEnv
  create : ProductStore → Product → Except String ProductStore
  folderProcessed : String

/-- Injectable database failures at the consumer's four repository call
sites: the initial `get_by_id`, the finalize `update`, and the recovery
path's `get_by_id` and `update`. -/
structure DbFaults where
  get1 : Option String
  upd1 : Option String
  get2 : Option String
  upd2 : Option String
deriving Repr, DecidableEq

/-- The state the pipeline acts on: the Job History Store and the Catalog
Store. -/
structure SysState where
  jobs : JobStore
  products : ProductStore
deriving Repr, DecidableEq

/-- One iteration of the row loop's `try` body: map the row to a product
and persist it; either failure is caught and yields the row's error
message, leaving the store as the create left it (unchanged on
failure). -/
def ingestRow (env : ConsumerEnv) (store : ProductStore) (row : Row) :
    ProductStore × Option String :=
  match createProductFromRow env.parse row with
  | .error m => (store, some m)
  | .ok p =>
    match env.create store p with
    | .error m => (store, some m)
    | .ok store' => (store', none)

/-- Embeds the `for index, row in df.iterrows()` loop of
`_process_file_content`: sequential, 0-indexed like the DataFrame, the
mutable counters and the error list threaded as accumulators; a failing
row appends `"Fila {index + 2}: {message}"` and never aborts the loop. -/
def rowLoop (env : ConsumerEnv) : ProductStore → Nat → Nat → Nat →
    List String → List Row → ProductStore × Nat × Nat × List String
  | store, _, succ, fail, errs, [] => (store, succ, fail, errs)
  | store, idx, succ, fail, errs, r :: rs =>
    match ingestRow env store r with
    | (store', none) => rowLoop env store' (idx + 1) (succ + 1) fail errs rs
    | (store', some m) =>
      rowLoop env store' (idx + 1) succ (fail + 1)
        (errs ++ ["Fila " ++ toString (idx + 2) ++ ": " ++ m]) rs

/-- The per-row outcome trace: the sequence of `none` (success) /
`some message` (failure) the loop observes, in row order, with the store
threaded through exactly as the loop threads it.  This is the reference
against which the loop's aggregates are specified. -/
def outcomes (env : ConsumerEnv) : ProductStore → List Row → List (Option String)
  | _, [] => []
  | s, r :: rs => (ingestRow env s r).2 :: outcomes env (ingestRow env s r).1 rs

/-- The Catalog Store state after the loop has run over the rows. -/
def runStore (env : ConsumerEnv) : ProductStore → List Row → ProductStore
  | s, [] => s
  | s, r :: rs => runStore env (ingestRow env s r).1 rs

/-- Pairs every element with its 0-based position starting at `i`. -/
def withIdx {α : Type} (i : Nat) : List α → List (Nat × α)
  | [] => []
  | a :: as => (i, a) :: withIdx (i + 1) as

/-- The parser chosen from the lowercased extension in
`_process_file_content` (and, on the submission side, in
`_validate_records_count`). -/
inductive ParserKind where
  | csv
  | excel
  | unsupported (ext : String)
deriving Repr, DecidableEq

/-- Extension-based parser selection: `csv` → delimited-text parser,
`xls`/`xlsx` → spreadsheet parser, anything else unsupported. -/
def parserFor (filename : String) : ParserKind :=
  let ext := extOf filename
  if ext = "csv" then .csv
  else if ext = "xls" ∨ ext = "xlsx" then .excel
  else .unsupported ext

/-- Reading the file into rows in `_process_file_content`: the selected
pandas reader, or the `Formato de archivo no soportado` failure. -/
def readRows (env : ConsumerEnv) (content filename : String) :
    Except String (List Row) :=
  match parserFor filename with
  | .csv => env.readCsv content
  | .excel => env.readExcel content
  | .unsupported ext => .error ("Formato de archivo no soportado: " ++ ext)

/-- Embeds `_process_file_content`: pick the parser from the extension,
read the rows, run the row loop; any raise inside (only the read or the
unsupported extension — the loop itself swallows row failures) is
re-wrapped as `Error al leer archivo: ...`.  On success returns the
mutated Catalog Store and `(total, successful, failed, errors)` with
`total = len(df)`. -/
def processFileContent (env : ConsumerEnv) (store : ProductStore)
    (content filename : String) :
    Except String (ProductStore × Nat × Nat × Nat × List String) :=
  match readRows env content filename with
  | .error m => .error ("Error al leer archivo: " ++ m)
  | .ok rows =>
    match rowLoop env store 0 0 0 [] rows with
    | (store', succ, fail, errs) => .ok (store', rows.length, succ, fail, errs)

/-- The aggregate returned by `process_file_by_history_id` on success. -/
structure ProcessResult where
  history_id : String
  file_name : String
  total_records : Nat
  successful_records : Nat
  failed_records : Nat
  result : String
  errors : List String
deriving Repr, DecidableEq

/-- The body of the consumer's outer `try`: look the job up (absence
raises), download the blob, process the content, finalize the job as
`Finalizado` with `"{successful}/{total} productos registrados"`.  The
returned state carries every store mutation the attempt committed before
the point of return, also when it ends in an error. -/
def consumeAttempt (env : ConsumerEnv) (db : DbFaults) (now : Nat)
    (st : SysState) (historyId : String) :
    SysState × Except String ProcessResult :=
  match historyGetById db.get1 st.jobs historyId with
  | .error m => (st, .error m)
  | .ok none =>
    (st, .error ("No se encontró registro de historial con ID: " ++ historyId))
  | .ok (some history) =>
    match env.download history.file_name env.folderProcessed with
    | .error m => (st, .error m)
    | .ok content =>
      match processFileContent env st.products content history.file_name with
      | .error m => (st, .error m)
      | .ok (products', total, succ, fail, errs) =>
        let resultMessage :=
          toString succ ++ "/" ++ toString total ++ " productos registrados"
        let history' :=
          { history with status := "Finalizado", result := some resultMessage,
                         updated_at := some now }
        let stP : SysState := { st with products := products' }
        match historyUpdate db.upd1 now stP.jobs history' with
        | (jobs', .error m) => ({ stP with jobs := jobs' }, .error m)
        | (jobs', .ok _) =>
          ({ stP with jobs := jobs' },
           .ok { history_id := historyId, file_name := history.file_name,
                 total_records := total, successful_records := succ,
                 failed_records := fail, result := resultMessage,
                 errors := errs })

/-- The job the recovery path writes: the re-fetched record forced to
`Error` with `result = "Error: <message>"`. -/
def recoveryJob (h : Job) (m : String) (now : Nat) : Job :=
  { h with status := "Error", result := some ("Error: " ++ m),
           updated_at := some now }

/-- The consumer's `except` block: best-effort recovery re-fetches the
job and updates it to `Error` with `"Error: <message>"`; any failure of
the re-fetch or of the update (including a `ValueError` from the model
validation inside `update`) is swallowed, leaving the state as it was. -/
def recoverFailure (db : DbFaults) (now : Nat) (st' : SysState)
    (historyId m : String) : SysState :=
  match historyGetById db.get2 st'.jobs historyId with
  | .error _ => st'
  | .ok none => st'
  | .ok (some history) =>
    match historyUpdate db.upd2 now st'.jobs (recoveryJob history m now) with
    | (jobs', .ok _) => { st' with jobs := jobs' }
    | (_, .error _) => st'

/-- Embeds `process_file_by_history_id`: run the attempt; on any raise,
run the best-effort recovery, and re-raise the original exception wrapped
as `Error al procesar archivo: ...`. -/
def processFileByHistoryId (env : ConsumerEnv) (db : DbFaults) (now : Nat)
    (st : SysState) (historyId : String) :
    SysState × Except String ProcessResult :=
  match consumeAttempt env db now st historyId with
  | (st', .ok r) => (st', .ok r)
  | (st', .error m) =>
    (recoverFailure db now st' historyId m,
     .error ("Error al procesar archivo: " ++ m))

/-- The HTTP response the delivery boundary returns. -/
structure HttpResponse where
  status : Nat
  success : Bool
  message : String
deriving Repr, DecidableEq

/-- Embeds the tail of `ProductProcessorController.process_products_file`
after the Pub/Sub envelope has been decoded and `history_id` extracted:
the service call wrapped in the controller's `try`, a success giving 200
and any exception giving a 500 error response carrying the message. -/
def handleProcessRequest (env : ConsumerEnv) (db : DbFaults) (now : Nat)
    (st : SysState) (historyId : String) : SysState × HttpResponse :=
  match processFileByHistoryId env db now st historyId with
  | (st', .ok _) =>
    (st', { status := 200, success := true,
            message := "Archivo procesado exitosamente" })
  | (st', .error m) =>
    (st', { status := 500, success := false,
            message := "Error al procesar archivo: " ++ m })

/-- The inbound file of a submission: declared name and raw content. -/
structure FileUpload where
  filename : String
  content : String
deriving Repr, DecidableEq

/-- The error taxonomy the Submission Handler raises. -/
inductive AppError where
  | validation (msg : String)
  | businessLogic (msg : String)
deriving Repr, DecidableEq

/-- The observable side effects of a submission, in the order they were
performed: the Blob Store write, the ImportJob creation, the event
publish. -/
inductive Effect where
  | upload (path : String) (originalName : String)
  | createJob (id : String)
  | publishEvent (id : String)
deriving Repr, DecidableEq

/-- The state the Submission Handler acts on: the Blob Store (path,
content, original-filename metadata), the Job History Store, and the
published event log. -/
structure SubState where
  blobs : List (String × String × String)
  jobs : JobStore
  published : List String
deriving Repr, DecidableEq

/-- The external collaborators and configuration of the Submission
Handler: the two pandas readers used by the eager row count, injectable
Cloud Storage and database failures, the Pub/Sub publish (history id →
message id), the configured row cap and folder, and the two freshly
generated UUIDs (file token and job id). -/
structure SubmitEnv where
  readCsv : String → Except String (List Row)
  readExcel : String → Except String (List Row)
  uploadFail : Option String
  createFail : Option String
  publish : String → Except String String
  maxImport : Nat
  folderProcessed : String
  uuidFile : String
  uuidJob : String

/-- The ImportJob record `_create_history_record` builds before the
repository assigns its id: the generated file key, the submitter, status
`En curso`, no result yet. -/
def newHistory (filename userId : String) (now : Nat) : Job :=
  { id := none, file_name := filename, user_id := userId,
    status := "En curso", result := none, created_at := now,
    updated_at := none }

/-- Embeds `ProductImportService.import_products_file` end to end:
required-field validation, file-type validation, the eager row count
against the cap, the generated file key, the Blob Store upload under the
processed folder, the ImportJob creation, the event publish.  Returns the
final state, the ordered side-effect trace, and either
`(history_id, success message)` or the raised error.  Each raise carries
the wrapping the source performs at that site. -/
def importProductsFile (env : SubmitEnv) (now : Nat) (st : SubState)
    (fileArg : Option FileUpload) (userId : String) :
    SubState × List Effect × Except AppError (String × String) :=
  match fileArg with
  | none => (st, [], .error (.validation "El archivo es obligatorio"))
  | some file =>
    if file.filename = "" then
      (st, [], .error (.validation "El archivo es obligatorio"))
    else if strTrim userId = "" then
      (st, [], .error (.validation "El userId es obligatorio"))
    else if ¬ hasDot file.filename.toList then
      (st, [], .error (.validation "El archivo no tiene extensión"))
    else if ¬ (extOf file.filename = "csv" ∨ extOf file.filename = "xls" ∨
               extOf file.filename = "xlsx") then
      (st, [], .error (.validation "Solo se permiten archivos CSV/Excel"))
    else
      match (if extOf file.filename = "csv" then env.readCsv file.content
             else env.readExcel file.content) with
      | .error m =>
        (st, [], .error (.validation ("Error al validar el archivo: " ++ m)))
      | .ok rows =>
        if rows.length > env.maxImport then
          (st, [],
           .error (.validation
             ("Solo se permiten cargar " ++ toString env.maxImport ++
              " productos. El archivo contiene " ++ toString rows.length ++
              " registros")))
        else
          let newName := generateNewFilename env.uuidFile file.filename
          let fullPath := env.folderProcessed ++ "/" ++ newName
          match env.uploadFail with
          | some m =>
            (st, [],
             .error (.businessLogic
               ("Error al subir archivo a Cloud Storage: " ++ m)))
          | none =>
            let st1 : SubState :=
              { st with blobs := st.blobs ++ [(fullPath, file.content, file.filename)] }
            match historyCreate env.createFail env.uuidJob st1.jobs
                (newHistory newName userId now) with
            | (_, .error m) =>
              (st1, [.upload fullPath file.filename],
               .error (.businessLogic
                 ("Error al crear registro de historial: " ++ m)))
            | (jobs', .ok job) =>
              let st2 : SubState := { st1 with jobs := jobs' }
              let jobId := (job.id).getD ""
              match env.publish jobId with
              | .error m =>
                (st2, [.upload fullPath file.filename, .createJob jobId],
                 .error (.businessLogic
                   ("Error al publicar evento de importación: " ++ m)))
              | .ok _mid =>
                ({ st2 with published := st2.published ++ [jobId] },
                 [.upload fullPath file.filename, .createJob jobId,
                  .publishEvent jobId],
                 .ok (jobId, "Archivo cargado exitosamente"))

/-- The required columns `_create_product_from_row` accesses with
`row[...]` (raising `KeyError` when absent), in the source's evaluation
order.  The `description` column is deliberately not here: the source
reads it with `row.get`, which cannot raise. -/
def requiredAccess : List String :=
  ["expiration_date", "sku", "name", "quantity", "price", "location",
   "product_type", "provider_id"]

/-- The Blob Store path and the ImportJob record a successful submission
produces, written out once so the theorems about `importProductsFile` can
name them. -/
def submittedPath (env : SubmitEnv) (f : FileUpload) : String :=
  env.folderProcessed ++ "/" ++ generateNewFilename env.uuidFile f.filename

/-- The ImportJob record a successful submission stores: the fresh file
key, the submitter, status `En curso`, no result, the job UUID. -/
def submittedJob (env : SubmitEnv) (f : FileUpload) (userId : String)
    (now : Nat) : Job :=
  { newHistory (generateNewFilename env.uuidFile f.filename) userId now with
      id := some env.uuidJob }

/-- Concrete scalar-coercion oracles used by the concrete scenarios: the
date `2026-01-01` parses to instant 200, `100` coerces to the integer
100, `5` to the rational 5, everything else fails. -/
def cParse : ParseEnv :=
  { fromIso := fun s => if s = "2026-01-01" then some 200 else none
    toDatetime := fun _ => none
    toInt := fun c =>
      match c with
      | some "100" => .ok 100
      | _ => .error "invalid literal for int() with base 10"
    toFloat := fun c =>
      match c with
      | some "5" => .ok 5
      | _ => .error "could not convert string to float" }

/-- A fully valid data row carrying every expected column. -/
def cRowFull : Row :=
  [("sku", some "MED-1234"), ("name", some "Paracetamol 500mg"),
   ("expiration_date", some "2026-01-01"), ("quantity", some "100"),
   ("price", some "5"), ("location", some "A-01-01"),
   ("description", some "Analgesico"), ("product_type", some "Alto valor"),
   ("provider_id", some "550e8400-e29b-41d4-a716-446655440000"),
   ("photo_filename", some "photo.jpg"),
   ("photo_url", some "https://example.com/photo.jpg")]

/-- A row whose `sku` violates the `MED-XXXX` pattern: the mapping
succeeds but the store's re-validation rejects it. -/
def cRowBadSku : Row :=
  [("sku", some "BAD"), ("name", some "Paracetamol 500mg"),
   ("expiration_date", some "2026-01-01"), ("quantity", some "100"),
   ("price", some "5"), ("location", some "A-01-01"),
   ("description", some "Analgesico"), ("product_type", some "Alto valor"),
   ("provider_id", some "550e8400-e29b-41d4-a716-446655440000"),
   ("photo_filename", some "photo.jpg"),
   ("photo_url", some "https://example.com/photo.jpg")]

/-- A valid row from a file that has no `description` column at all (and
no media columns). -/
def cRowNoDesc : Row :=
  [("sku", some "MED-1234"), ("name", some "Paracetamol 500mg"),
   ("expiration_date", some "2026-01-01"), ("quantity", some "100"),
   ("price", some "5"), ("location", some "A-01-01"),
   ("product_type", some "Alto valor"),
   ("provider_id", some "550e8400-e29b-41d4-a716-446655440000")]

/-- A row from a file that has no `sku` column. -/
def cRowNoSku : Row :=
  [("name", some "Paracetamol 500mg"),
   ("expiration_date", some "2026-01-01"), ("quantity", some "100"),
   ("price", some "5"), ("location", some "A-01-01"),
   ("description", some "Analgesico"), ("product_type", some "Alto valor"),
   ("provider_id", some "550e8400-e29b-41d4-a716-446655440000")]

/-- The catalog record the `cRowNoDesc` row maps and validates to. -/
def cProdNoDesc : Product :=
  { sku := "MED-1234", name := "Paracetamol 500mg", expiration_date := 200,
    quantity := 100, price := 5, location := "A-01-01", description := "",
    product_type := "Alto valor",
    provider_id := "550e8400-e29b-41d4-a716-446655440000",
    photo_filename := none, photo_url := none }

/-- The catalog record the `cRowFull` row maps and validates to. -/
def cProdFull : Product :=
  { cProdNoDesc with
      description := "Analgesico"
      photo_filename := some "photo.jpg"
      photo_url := some "https://example.com/photo.jpg" }

/-- A concrete consumer environment whose CSV reader yields the given
rows, whose Catalog Store is the modelled validating store at instant 0,
and whose download always succeeds. -/
def mkConsumerEnv (rows : List Row) : ConsumerEnv :=
  { download := fun _ _ => .ok "FILE"
    readCsv := fun _ => .ok rows
    readExcel := fun _ => .error "excel reader not exercised"
    parse := cParse
    create := productCreate 0
    folderProcessed := "processed_products" }

/-- A consumer environment whose Cloud Storage download always raises. -/
def cEnvDlFail : ConsumerEnv :=
  { mkConsumerEnv [] with download := fun _ _ => .error "boom" }

/-- No injected database failure at any repository call site. -/
def noFaults : DbFaults :=
  { get1 := none, upd1 := none, get2 := none, upd2 := none }

/-- A Pending job record. -/
def cJobPending : Job :=
  { id := some "j1", file_name := "products_u.csv", user_id := "user-1",
    status := "En curso", result := none, created_at := 0,
    updated_at := none }

/-- A job record already in the terminal Failed state, its outcome
summary set. -/
def cJobError : Job :=
  { cJobPending with status := "Error", result := some "Error: boom",
                     updated_at := some 3 }

/-- A system state holding exactly the Pending job. -/
def cStatePending : SysState := { jobs := [cJobPending], products := [] }

/-- A system state holding exactly the Failed job. -/
def cStateErr : SysState := { jobs := [cJobError], products := [] }

/-- The empty system state. -/
def cStateEmpty : SysState := { jobs := [], products := [] }

/-- A job record violating the model bounds (empty file name). -/
def cBadJob : Job :=
  { id := none, file_name := "", user_id := "user-1", status := "En curso",
    result := none, created_at := 0, updated_at := none }

/-- A concrete submission file. -/
def cFile : FileUpload := { filename := "products.csv", content := "FILE" }

/-- A submission environment whose CSV parses to 101 empty rows against
the default cap of 100. -/
def cSubmitOver : SubmitEnv :=
  { readCsv := fun _ => .ok (List.replicate 101 [])
    readExcel := fun _ => .error "excel reader not exercised"
    uploadFail := none, createFail := none
    publish := fun _ => .ok "mid-1", maxImport := 100
    folderProcessed := "processed-products"
    uuidFile := "f-uuid", uuidJob := "j-uuid" }

/-- A submission environment for a small valid file whose publish
succeeds. -/
def cSubmitOk : SubmitEnv :=
  { cSubmitOver with readCsv := fun _ => .ok [cRowFull] }

/-- The same submission environment with a failing Pub/Sub publish. -/
def cSubmitPubFail : SubmitEnv :=
  { cSubmitOk with publish := fun _ => .error "boom" }

/-- An empty submission-side state. -/
def cSubStateEmpty : SubState := { blobs := [], jobs := [], published := [] }

theorem countP_none_add_countP_some (l : List (Option String)) :
    l.countP Option.isNone + l.countP Option.isSome = l.length := by
  induction l with
  | nil => simp
  | cons a l ih => cases a <;> simp [List.countP_cons] <;> omega

theorem withIdx_filterMap_length (f : Nat → String → String) :
    ∀ (l : List (Option String)) (i : Nat),
      ((withIdx i l).filterMap (fun p => p.2.map (f p.1))).length =
        l.countP Option.isSome := by
  intro l
  induction l with
  | nil => intro i; simp [withIdx]
  | cons a l ih =>
    intro i
    cases a <;> simp [withIdx, List.countP_cons, ih]

theorem rowLoop_spec (env : ConsumerEnv) :
    ∀ (rows : List Row) (store : ProductStore) (idx succ fail : Nat)
      (errs : List String),
      rowLoop env store idx succ fail errs rows =
        (runStore env store rows,
         succ + (outcomes env store rows).countP Option.isNone,
         fail + (outcomes env store rows).countP Option.isSome,
         errs ++ (withIdx idx (outcomes env store rows)).filterMap
           (fun p => p.2.map
             (fun m => "Fila " ++ toString (p.1 + 2) ++ ": " ++ m))) := by
  intro rows
  induction rows with
  | nil =>
    intro store idx succ fail errs
    simp [rowLoop, runStore, outcomes, withIdx]
  | cons r rs ih =>
    intro store idx succ fail errs
    rcases hr : ingestRow env store r with ⟨s', o⟩
    cases o with
    | none =>
      simp only [rowLoop, hr]
      rw [ih]
      simp [outcomes, hr, runStore, withIdx, List.countP_cons, Prod.mk.injEq]
      omega
    | some m =>
      simp only [rowLoop, hr]
      rw [ih]
      simp [outcomes, hr, runStore, withIdx, List.countP_cons, Prod.mk.injEq,
        List.append_assoc]
      omega

theorem outcomes_length (env : ConsumerEnv) :
    ∀ (rows : List Row) (store : ProductStore),
      (outcomes env store rows).length = rows.length := by
  intro rows
  induction rows with
  | nil => intro store; simp [outcomes]
  | cons r rs ih => intro store; simp [outcomes, ih]

/-- Claim C1: for a file whose parse succeeds with rows `rows`, the
consumer's content processing returns `total = N` (the number of data
rows), `successful = N - M` and `failed = M` where `M` counts the rows
whose ingestion fails, and the error list holds exactly the `M` failing
rows in row order, each entry prefixed `Fila <k>` with `k` the row's
1-indexed number in the source file (the header occupies row 1, so the
data row at 0-based position `i` is row `i + 2`). -/
theorem c1_row_aggregates (env : ConsumerEnv) (store : ProductStore)
    (content filename : String) (rows : List Row)
    (hread : readRows env content filename = .ok rows) :
    processFileContent env store content filename =
      .ok (runStore env store rows, rows.length,
           (outcomes env store rows).countP Option.isNone,
           (outcomes env store rows).countP Option.isSome,
           (withIdx 0 (outcomes env store rows)).filterMap
             (fun p => p.2.map
               (fun m => "Fila " ++ toString (p.1 + 2) ++ ": " ++ m))) ∧
    (outcomes env store rows).countP Option.isNone =
      rows.length - (outcomes env store rows).countP Option.isSome ∧
    ((withIdx 0 (outcomes env store rows)).filterMap
       (fun p => p.2.map
         (fun m => "Fila " ++ toString (p.1 + 2) ++ ": " ++ m))).length =
      (outcomes env store rows).countP Option.isSome ∧
    (outcomes env store rows).countP Option.isSome ≤ rows.length := by
  have hsum := countP_none_add_countP_some (outcomes env store rows)
  have hlen := outcomes_length env rows store
  refine ⟨?_, by omega,
    withIdx_filterMap_length
      (fun i m => "Fila " ++ toString (i + 2) ++ ": " ++ m)
      (outcomes env store rows) 0, by omega⟩
  simp only [processFileContent, hread]
  rw [rowLoop_spec]
  simp

/-- Witness for C1 at a concrete two-row file: the first row ingests, the
second fails the store's SKU validation, so the aggregate is
`total = 2, successful = 1, failed = 1` with the single error prefixed
`Fila 3` (the second data row sits on row 3 of the source file). -/
theorem c1_witness :
    processFileContent (mkConsumerEnv [cRowFull, cRowBadSku]) [] "FILE"
        "products_u.csv" =
      .ok ([cProdFull], 2, 1, 1,
           ["Fila 3: El SKU debe seguir el formato MED-XXXX (4 dígitos numéricos)"]) := by
  have h := (c1_row_aggregates (mkConsumerEnv [cRowFull, cRowBadSku]) []
    "FILE" "products_u.csv" [cRowFull, cRowBadSku] (by decide)).1
  rw [h]
  decide

theorem validateHistory_ok_iff (h : Job) :
    validateHistory h = .ok () ↔ boundsOk h := by
  unfold validateHistory boundsOk
  split_ifs with h1 h2 h3 h4 h5 h6 <;> simp_all

theorem boundsOk_writeFields (j h : Job) (now : Nat) (hb : boundsOk h) :
    boundsOk (writeFields j h now) := by
  simpa [writeFields, boundsOk] using hb

theorem mem_updateFirst {now : Nat} {h r : Job} :
    ∀ {s : JobStore}, r ∈ updateFirst now h s →
      r ∈ s ∨ ∃ j, j ∈ s ∧ r = writeFields j h now := by
  intro s
  induction s with
  | nil => intro hr; simp [updateFirst] at hr
  | cons a as ih =>
    intro hr
    by_cases ha : a.id == h.id
    · simp [updateFirst, ha] at hr
      rcases hr with hr | hr
      · exact Or.inr ⟨a, by simp, hr⟩
      · exact Or.inl (by simp [hr])
    · simp [updateFirst, ha] at hr
      rcases hr with hr | hr
      · exact Or.inl (by simp [hr])
      · rcases ih hr with hr' | ⟨j, hj, hrj⟩
        · exact Or.inl (by simp [hr'])
        · exact Or.inr ⟨j, by simp [hj], hrj⟩

theorem historyCreate_ok_shape {dbFail : Option String} {uuid : String}
    {s s' : JobStore} {h j : Job}
    (hc : historyCreate dbFail uuid s h = (s', .ok j)) :
    s' = s ++ [j] ∧ validateHistory h = .ok () ∧ j.status = h.status ∧
      j.result = h.result ∧ j.file_name = h.file_name ∧
      j.user_id = h.user_id := by
  unfold historyCreate at hc
  rcases hv : validateHistory h with m | u
  · simp [hv] at hc
  · cases u
    rcases hd : dbFail with _ | m
    · rcases hid : h.id with _ | i
      · simp [hv, hd, hid] at hc
        rcases hc with ⟨rfl, rfl⟩
        simp
      · by_cases hi : i = "" <;> simp [hv, hd, hid, hi] at hc <;>
          rcases hc with ⟨rfl, rfl⟩ <;> simp
    · simp [hv, hd] at hc

/-- Claim C9: every record the Job History Store's create or update
operation persists satisfies the field bounds (`file_name` non-empty and
at most 100 characters, `user_id` non-empty and at most 36, `status`
non-empty and at most 20); both operations run the model validation
before any write, so a violating record is rejected with the validation
`ValueError` and the store is unchanged. -/
theorem c9_bounds (dbFail : Option String) (uuid : String) (now : Nat)
    (s : JobStore) (h : Job) :
    (validateHistory h = .ok () ↔ boundsOk h) ∧
    (¬ boundsOk h →
      (∃ m, historyCreate dbFail uuid s h = (s, .error m)) ∧
      (∃ m, historyUpdate dbFail now s h = (s, .error m))) ∧
    (∀ s' j, historyCreate dbFail uuid s h = (s', .ok j) →
      s' = s ++ [j] ∧ boundsOk j) ∧
    (∀ s' j, historyUpdate dbFail now s h = (s', .ok j) →
      ∀ r ∈ s', r ∈ s ∨ boundsOk r) := by
  refine ⟨validateHistory_ok_iff h, ?_, ?_, ?_⟩
  · intro hb
    rcases hv : validateHistory h with m | u
    · exact ⟨⟨m, by simp [historyCreate, hv]⟩, ⟨m, by simp [historyUpdate, hv]⟩⟩
    · cases u
      exact absurd ((validateHistory_ok_iff h).mp hv) hb
  · intro s' j hc
    rcases historyCreate_ok_shape hc with ⟨hs, hv, hst, hres, hfn, hu⟩
    refine ⟨hs, ?_⟩
    have hb := (validateHistory_ok_iff h).mp hv
    unfold boundsOk at hb ⊢
    rw [hst, hres, hfn, hu] at *
    simp_all
  · intro s' j hu r hr
    unfold historyUpdate at hu
    rcases hv : validateHistory h with m | u
    · simp [hv] at hu
    · cases u
      rcases hd : dbFail with _ | m
      · simp [hv, hd] at hu
        rcases hu with ⟨rfl, rfl⟩
        rcases mem_updateFirst hr with hr' | ⟨j', _, rfl⟩
        · exact Or.inl hr'
        · exact Or.inr (boundsOk_writeFields j' h now
            ((validateHistory_ok_iff h).mp hv))
      · simp [hv, hd] at hu

/-- Witness for C9: the record with an empty file name violates the
bounds and its create attempt is rejected with the store unchanged. -/
theorem c9_bounds_witness :
    ¬ boundsOk cBadJob ∧
      (∃ m, historyCreate none "u" [] cBadJob = ([], .error m)) := by
  refine ⟨by decide, ?_⟩
  exact ((c9_bounds none "u" 0 [] cBadJob).2.1 (by decide)).1

theorem lowerChar_ne_dot {c : Char} (h : c ≠ '.') : lowerChar c ≠ '.' := by
  unfold lowerChar
  split_ifs with hr
  · obtain ⟨h1, h2⟩ := hr
    set n := c.toNat with hn
    interval_cases n <;> decide
  · exact h

theorem hasDot_append :
    ∀ l1 l2 : List Char, hasDot (l1 ++ l2) = (hasDot l1 || hasDot l2) := by
  intro l1 l2
  induction l1 with
  | nil => simp [hasDot]
  | cons c cs ih => simp [hasDot, ih, Bool.or_assoc]

theorem map_lowerChar_no_dot :
    ∀ l : List Char, hasDot l = false →
      hasDot (l.map lowerChar) = false := by
  intro l
  induction l with
  | nil => intro _; simp [hasDot]
  | cons c cs ih =>
    intro h
    simp only [hasDot, Bool.or_eq_false_iff, beq_eq_false_iff_ne] at h ⊢
    refine ⟨lowerChar_ne_dot h.1, ih h.2⟩

theorem afterLastDot_append :
    ∀ (l1 l2 : List Char), hasDot l2 = false →
      afterLastDot (l1 ++ '.' :: l2) = l2 := by
  intro l1
  induction l1 with
  | nil => intro l2 h; simp [afterLastDot, h]
  | cons c cs ih =>
    intro l2 h
    have hdot : hasDot (cs ++ '.' :: l2) = true := by
      simp [hasDot_append, hasDot]
    simp [afterLastDot, hdot, ih l2 h]

theorem afterLastDot_no_dot :
    ∀ l : List Char, hasDot (afterLastDot l) = false := by
  intro l
  induction l with
  | nil => simp [afterLastDot, hasDot]
  | cons c cs ih =>
    by_cases h : hasDot cs = true
    · simp [afterLastDot, h, ih]
    · simp only [Bool.not_eq_true] at h
      by_cases hc : c = '.'
      · simp [afterLastDot, h, hc]
      · have hcb : (c == '.') = false := by simpa using hc
        simp [afterLastDot, h, hcb, hasDot]

theorem beforeLastDot_decomp :
    ∀ l : List Char, hasDot l = true →
      l = beforeLastDot l ++ '.' :: afterLastDot l := by
  intro l
  induction l with
  | nil => intro h; simp [hasDot] at h
  | cons c cs ih =>
    intro h
    by_cases hcs : hasDot cs = true
    · simp only [beforeLastDot, afterLastDot, hcs, if_true]
      exact congrArg (c :: ·) (ih hcs)
    · simp only [Bool.not_eq_true] at hcs
      have hc : (c == '.') = true := by
        simp only [hasDot, hcs, Bool.or_false] at h
        exact h
      have hc' : c = '.' := by simpa using hc
      subst hc'
      simp [beforeLastDot, afterLastDot, hcs]

/-- Amended claim C10: for an original filename containing a dot whose
extension (the substring after the last dot) is non-empty, the generated
storage key is `<base>_<uuid>.<ext>` with `<ext>` that extension; the
key's extension (raw, and lowercased as the extension extraction
computes it) therefore equals the submitted file's extension, so the
consumer's extension-based parser selection picks the same parser for
the stored key as it would for the original name.  A name ending in a
dot (empty extension) is handled by the source's `if extension:` guard
and gets no dot appended — see the counterexample. -/
theorem c10_extension_preserved (uuid original : String)
    (hdot : hasDot original.toList = true)
    (hext : String.mk (afterLastDot original.toList) ≠ "") :
    generateNewFilename uuid original =
      String.mk (beforeLastDot original.toList) ++ "_" ++ uuid ++ "." ++
        String.mk (afterLastDot original.toList) ∧
    afterLastDot (generateNewFilename uuid original).toList =
      afterLastDot original.toList ∧
    extOf (generateNewFilename uuid original) = extOf original ∧
    parserFor (generateNewFilename uuid original) = parserFor original := by
  have hform : generateNewFilename uuid original =
      String.mk (beforeLastDot original.toList) ++ "_" ++ uuid ++ "." ++
        String.mk (afterLastDot original.toList) := by
    simp only [generateNewFilename]
    rw [if_pos hdot, if_pos hdot, if_pos hext]
  have hext_nodot := afterLastDot_no_dot original.toList
  have hlist : (generateNewFilename uuid original).toList =
      (beforeLastDot original.toList ++ '_' :: uuid.toList) ++
        '.' :: afterLastDot original.toList := by
    rw [hform]
    simp [String.toList, String.data_append]
  have hraw : afterLastDot (generateNewFilename uuid original).toList =
      afterLastDot original.toList := by
    rw [hlist]
    exact afterLastDot_append _ _ hext_nodot
  have hlowmap : (afterLastDot original.toList).map lowerChar =
      afterLastDot (original.toList.map lowerChar) := by
    have hdec := beforeLastDot_decomp original.toList hdot
    have : original.toList.map lowerChar =
        (beforeLastDot original.toList).map lowerChar ++
          '.' :: (afterLastDot original.toList).map lowerChar := by
      conv_lhs => rw [hdec]
      simp [lowerChar]
    rw [this, afterLastDot_append _ _ (map_lowerChar_no_dot _ hext_nodot)]
  have hextOf : extOf (generateNewFilename uuid original) = extOf original := by
    unfold extOf
    rw [hlist]
    have : ((beforeLastDot original.toList ++ '_' :: uuid.toList) ++
        '.' :: afterLastDot original.toList).map lowerChar =
        ((beforeLastDot original.toList ++ '_' :: uuid.toList).map lowerChar) ++
          '.' :: (afterLastDot original.toList).map lowerChar := by
      simp [lowerChar]
    rw [this, afterLastDot_append _ _ (map_lowerChar_no_dot _ hext_nodot),
      hlowmap]
  exact ⟨hform, hraw, hextOf, by simp [parserFor, hextOf]⟩

/-- Witness for the amended C10 at a concrete filename: `products.csv`
with token `f-uuid` becomes `products_f-uuid.csv`, whose extension is
still `csv`. -/
theorem c10_extension_preserved_witness :
    hasDot ("products.csv" : String).toList = true ∧
    generateNewFilename "f-uuid" "products.csv" =
      String.mk (beforeLastDot ("products.csv" : String).toList) ++ "_" ++
        "f-uuid" ++ "." ++
        String.mk (afterLastDot ("products.csv" : String).toList) ∧
    extOf (generateNewFilename "f-uuid" "products.csv") =
      extOf "products.csv" := by
  have h := c10_extension_preserved "f-uuid" "products.csv" (by decide)
    (by decide)
  exact ⟨by decide, h.1, h.2.2.1⟩

/-- Counterexample to C10 as stated: the claim quantifies over every
original filename containing a dot, but for `file.` — where the
substring after the last dot is empty — the source's `if extension:`
guard emits `file_<uuid>` with no dot appended: the key is not of the
form `<base>_<uuid>.<ext>`, and its extension (the whole dotless key) is
not the original's (empty) extension. -/
theorem c10_counterexample :
    hasDot ("file." : String).toList = true ∧
    generateNewFilename "u-1" "file." = "file_u-1" ∧
    generateNewFilename "u-1" "file." ≠
      String.mk (beforeLastDot ("file." : String).toList) ++ "_" ++ "u-1" ++
        "." ++ String.mk (afterLastDot ("file." : String).toList) ∧
    extOf (generateNewFilename "u-1" "file.") ≠ extOf "file." := by
  decide

/-- Claim C4: a submission that passes the earlier input checks and whose
file parses to more data rows than the configured maximum raises
`ValidationError` reporting both the limit and the actual count, with no
Blob Store write, no ImportJob creation and no event publish: the state
is untouched and the side-effect trace empty. -/
theorem c4_row_cap (env : SubmitEnv) (now : Nat) (st : SubState)
    (f : FileUpload) (userId : String) (rows : List Row)
    (hfn : ¬ f.filename = "")
    (huser : ¬ strTrim userId = "")
    (hdot : hasDot f.filename.toList = true)
    (hext : extOf f.filename = "csv" ∨ extOf f.filename = "xls" ∨
      extOf f.filename = "xlsx")
    (hread : (if extOf f.filename = "csv" then env.readCsv f.content
              else env.readExcel f.content) = .ok rows)
    (hover : rows.length > env.maxImport) :
    importProductsFile env now st (some f) userId =
      (st, [], .error (.validation
        ("Solo se permiten cargar " ++ toString env.maxImport ++
         " productos. El archivo contiene " ++ toString rows.length ++
         " registros"))) := by
  simp only [importProductsFile]
  rw [if_neg hfn, if_neg huser, if_neg (not_not_intro hdot),
    if_neg (not_not_intro hext), hread]
  simp [hover]

/-- Witness for C4: a 101-row CSV against the cap of 100 is rejected with
the message naming 100 and 101, and the state and trace are untouched. -/
theorem c4_row_cap_witness :
    importProductsFile cSubmitOver 0 cSubStateEmpty (some cFile) "user-1" =
      (cSubStateEmpty, [], .error (.validation
        ("Solo se permiten cargar 100 productos. El archivo contiene 101 registros"))) := by
  have h := c4_row_cap cSubmitOver 0 cSubStateEmpty cFile "user-1"
    (List.replicate 101 []) (by decide) (by decide) (by decide)
    (by decide) (by decide) (by decide)
  rw [h]
  decide

/-- Claim C5: once the validations pass, the submission's side effects
happen in the fixed order upload → create job record → publish event (the
trace lists them in that order); when the Message Channel publish fails,
the handler raises `BusinessLogicError` and the already-created ImportJob
record is not rolled back — it remains stored with status `En curso`. -/
theorem c5_effect_order (env : SubmitEnv) (now : Nat) (st : SubState)
    (f : FileUpload) (userId : String) (rows : List Row)
    (hfn : ¬ f.filename = "")
    (huser : ¬ strTrim userId = "")
    (hdot : hasDot f.filename.toList = true)
    (hext : extOf f.filename = "csv" ∨ extOf f.filename = "xls" ∨
      extOf f.filename = "xlsx")
    (hread : (if extOf f.filename = "csv" then env.readCsv f.content
              else env.readExcel f.content) = .ok rows)
    (hcap : ¬ rows.length > env.maxImport)
    (hupload : env.uploadFail = none)
    (hvalid : validateHistory
      (newHistory (generateNewFilename env.uuidFile f.filename) userId now) =
        .ok ())
    (hcreate : env.createFail = none) :
    (∀ mid, env.publish env.uuidJob = .ok mid →
      importProductsFile env now st (some f) userId =
        ({ blobs := st.blobs ++ [(submittedPath env f, f.content, f.filename)],
           jobs := st.jobs ++ [submittedJob env f userId now],
           published := st.published ++ [env.uuidJob] },
         [.upload (submittedPath env f) f.filename, .createJob env.uuidJob,
          .publishEvent env.uuidJob],
         .ok (env.uuidJob, "Archivo cargado exitosamente"))) ∧
    (∀ m, env.publish env.uuidJob = .error m →
      importProductsFile env now st (some f) userId =
        ({ blobs := st.blobs ++ [(submittedPath env f, f.content, f.filename)],
           jobs := st.jobs ++ [submittedJob env f userId now],
           published := st.published },
         [.upload (submittedPath env f) f.filename, .createJob env.uuidJob],
         .error (.businessLogic
           ("Error al publicar evento de importación: " ++ m)))) ∧
    (submittedJob env f userId now).status = "En curso" ∧
    (submittedJob env f userId now).result = none := by
  have hbase : ∀ (res : Except String String), env.publish env.uuidJob = res →
      importProductsFile env now st (some f) userId =
        (match res with
         | .error m =>
           ({ blobs := st.blobs ++ [(submittedPath env f, f.content, f.filename)],
              jobs := st.jobs ++ [submittedJob env f userId now],
              published := st.published },
            [.upload (submittedPath env f) f.filename, .createJob env.uuidJob],
            .error (.businessLogic
              ("Error al publicar evento de importación: " ++ m)))
         | .ok _ =>
           ({ blobs := st.blobs ++ [(submittedPath env f, f.content, f.filename)],
              jobs := st.jobs ++ [submittedJob env f userId now],
              published := st.published ++ [env.uuidJob] },
            [.upload (submittedPath env f) f.filename, .createJob env.uuidJob,
             .publishEvent env.uuidJob],
            .ok (env.uuidJob, "Archivo cargado exitosamente"))) := by
    intro res hres
    simp only [newHistory] at hvalid
    simp only [importProductsFile]
    rw [if_neg hfn, if_neg huser, if_neg (not_not_intro hdot),
      if_neg (not_not_intro hext)]
    simp only [hread]
    rw [if_neg hcap]
    simp only [hupload, historyCreate, newHistory, hvalid, hcreate,
      Option.getD_some]
    rw [hres]
    cases res <;> rfl
  refine ⟨?_, ?_, rfl, rfl⟩
  · intro mid hpub
    simpa using hbase (.ok mid) hpub
  · intro m hpub
    simpa using hbase (.error m) hpub

/-- Witness for C5 in both publish outcomes, at a concrete small file:
with a succeeding publish the trace is upload, create, publish; with a
failing publish the job record stays stored with status `En curso` and
the handler raises the wrapped `BusinessLogicError`. -/
theorem c5_effect_order_witness :
    importProductsFile cSubmitOk 0 cSubStateEmpty (some cFile) "user-1" =
      ({ blobs := [(submittedPath cSubmitOk cFile, "FILE", "products.csv")],
         jobs := [submittedJob cSubmitOk cFile "user-1" 0],
         published := ["j-uuid"] },
       [.upload (submittedPath cSubmitOk cFile) "products.csv",
        .createJob "j-uuid", .publishEvent "j-uuid"],
       .ok ("j-uuid", "Archivo cargado exitosamente")) ∧
    importProductsFile cSubmitPubFail 0 cSubStateEmpty (some cFile) "user-1" =
      ({ blobs := [(submittedPath cSubmitPubFail cFile, "FILE", "products.csv")],
         jobs := [submittedJob cSubmitPubFail cFile "user-1" 0],
         published := [] },
       [.upload (submittedPath cSubmitPubFail cFile) "products.csv",
        .createJob "j-uuid"],
       .error (.businessLogic
         ("Error al publicar evento de importación: boom"))) := by
  constructor
  · have h := (c5_effect_order cSubmitOk 0 cSubStateEmpty cFile "user-1"
      [cRowFull] (by decide) (by decide) (by decide) (by decide) (by decide)
      (by decide) (by decide) (by decide) (by decide)).1 "mid-1" (by decide)
    rw [h]
    decide
  · have h := (c5_effect_order cSubmitPubFail 0 cSubStateEmpty cFile "user-1"
      [cRowFull] (by decide) (by decide) (by decide) (by decide) (by decide)
      (by decide) (by decide) (by decide) (by decide)).2.1 "boom" (by decide)
    rw [h]
    decide

theorem getById_some_id {s : JobStore} {i : String} {j : Job}
    (h : getById s i = some j) : j.id = some i := by
  unfold getById at h
  have := List.find?_some h
  simpa using this

theorem historyUpdate_error_jobs {dbFail : Option String} {now : Nat}
    {s : JobStore} {h : Job} {jobs' : JobStore} {m : String}
    (hu : historyUpdate dbFail now s h = (jobs', .error m)) : jobs' = s := by
  unfold historyUpdate at hu
  rcases hv : validateHistory h with m' | u
  · simp [hv] at hu
    exact hu.1.symm
  · cases u
    rcases hd : dbFail with _ | m' <;> simp [hv, hd] at hu
    exact hu.1.symm

/-- Claim C8: invoking the Import Consumer with a job id that has no
ImportJob record leaves both the Job History Store and the Catalog Store
exactly as they were: the whole system state is unchanged. -/
theorem c8_frame (env : ConsumerEnv) (db : DbFaults) (now : Nat)
    (st : SysState) (i : String) (hmiss : getById st.jobs i = none) :
    (processFileByHistoryId env db now st i).1 = st := by
  unfold processFileByHistoryId consumeAttempt
  rcases hg : db.get1 with _ | mg <;>
    rcases hg2 : db.get2 with _ | m2 <;>
      simp [recoverFailure, historyGetById, hg, hg2, hmiss]

/-- Witness for C8 on the empty state. -/
theorem c8_frame_witness :
    (processFileByHistoryId (mkConsumerEnv []) noFaults 0 cStateEmpty
      "missing").1 = cStateEmpty :=
  c8_frame (mkConsumerEnv []) noFaults 0 cStateEmpty "missing" (by decide)

/-- Amended claim C6: when the initial lookup finds no ImportJob for the
delivered id, the consumer raises (it does not abort silently): the
service re-raises `Error al procesar archivo: No se encontró registro de
historial con ID: <id>`, no job record is created or mutated, and the
delivery boundary surfaces a 500 error response carrying the message
(wrapped once more by the controller). -/
theorem c6_notfound_error_response (env : ConsumerEnv) (db : DbFaults)
    (now : Nat) (st : SysState) (i : String)
    (hget1 : db.get1 = none) (hmiss : getById st.jobs i = none) :
    processFileByHistoryId env db now st i =
      (st, .error ("Error al procesar archivo: " ++
        ("No se encontró registro de historial con ID: " ++ i))) ∧
    handleProcessRequest env db now st i =
      (st, { status := 500, success := false,
             message := "Error al procesar archivo: " ++
               ("Error al procesar archivo: " ++
                 ("No se encontró registro de historial con ID: " ++ i)) }) := by
  have h1 : processFileByHistoryId env db now st i =
      (st, .error ("Error al procesar archivo: " ++
        ("No se encontró registro de historial con ID: " ++ i))) := by
    unfold processFileByHistoryId consumeAttempt
    rcases hg2 : db.get2 with _ | m2 <;>
      simp [recoverFailure, historyGetById, hget1, hg2, hmiss]
  refine ⟨h1, ?_⟩
  unfold handleProcessRequest
  rw [h1]

/-- Witness for the amended C6 at a concrete empty store. -/
theorem c6_notfound_error_response_witness :
    processFileByHistoryId (mkConsumerEnv []) noFaults 0 cStateEmpty
        "missing" =
      (cStateEmpty, .error ("Error al procesar archivo: " ++
        ("No se encontró registro de historial con ID: " ++ "missing"))) :=
  (c6_notfound_error_response (mkConsumerEnv []) noFaults 0 cStateEmpty
    "missing" rfl (by decide)).1

/-- Counterexample to C6 as stated: the spec says a missing job aborts
silently with no error response surfaced to the caller, but on a concrete
delivery naming an absent job the boundary answers with an unsuccessful
500 response (and the service raised). -/
theorem c6_counterexample :
    getById cStateEmpty.jobs "missing" = none ∧
    (handleProcessRequest (mkConsumerEnv []) noFaults 0 cStateEmpty
      "missing").2.status = 500 ∧
    (handleProcessRequest (mkConsumerEnv []) noFaults 0 cStateEmpty
      "missing").2.success = false := by
  decide

theorem historyUpdate_ok_jobs {dbFail : Option String} {now : Nat}
    {s : JobStore} {h : Job} {jobs' : JobStore} {j : Job}
    (hu : historyUpdate dbFail now s h = (jobs', .ok j)) :
    jobs' = updateFirst now h s := by
  unfold historyUpdate at hu
  rcases hv : validateHistory h with m | u
  · simp [hv] at hu
  · cases u
    rcases hd : dbFail with _ | m <;> simp [hv, hd] at hu
    exact hu.1.symm

theorem getById_updateFirst_self {now : Nat} {h j : Job} {i : String} :
    ∀ {s : JobStore}, getById s i = some j → h.id = some i →
      getById (updateFirst now h s) i = some (writeFields j h now) := by
  intro s
  induction s with
  | nil => intro hf _; simp [getById] at hf
  | cons a as ih =>
    intro hf hid
    by_cases ha : a.id = some i
    · have hj : j = a := by
        unfold getById at hf
        rw [List.find?_cons_of_pos _ (by simpa using ha)] at hf
        exact (Option.some.inj hf).symm
      rw [hj]
      unfold updateFirst
      have hcond : (a.id == h.id) = true := by
        rw [hid]
        exact beq_iff_eq.mpr ha
      rw [if_pos (by simp [hcond])]
      unfold getById
      rw [List.find?_cons_of_pos _ (by simp [writeFields, ha])]
    · unfold getById at hf
      rw [List.find?_cons_of_neg _ (by simpa using ha)] at hf
      unfold updateFirst
      have hb : (a.id == h.id) = false := by
        rw [hid]
        exact beq_eq_false_iff_ne.mpr ha
      rw [if_neg (by simp [hb])]
      unfold getById
      rw [List.find?_cons_of_neg _ (by simpa using ha)]
      exact ih hf hid

theorem consumeAttempt_error_jobs
    {env : ConsumerEnv} {db : DbFaults} {now : Nat} {st : SysState}
    {i : String} {stA : SysState} {m : String}
    (hA : consumeAttempt env db now st i = (stA, .error m)) :
    stA.jobs = st.jobs := by
  simp only [consumeAttempt] at hA
  split at hA
  · injection hA with h1 h2; rw [← h1]
  · injection hA with h1 h2; rw [← h1]
  · split at hA
    · injection hA with h1 h2; rw [← h1]
    · split at hA
      · injection hA with h1 h2; rw [← h1]
      · split at hA
        · rename_i jobs2 m2 hequpd
          injection hA with h1 h2
          rw [← h1]
          simpa using historyUpdate_error_jobs hequpd
        · injection hA with h1 h2
          exact Except.noConfusion h2

theorem consumeAttempt_ok_shape
    {env : ConsumerEnv} {db : DbFaults} {now : Nat} {st : SysState}
    {i : String} {stA : SysState} {r : ProcessResult} {h : Job}
    (hfound : getById st.jobs i = some h)
    (hA : consumeAttempt env db now st i = (stA, .ok r)) :
    ∃ msg, getById stA.jobs i =
      some { h with status := "Finalizado", result := some msg,
                    updated_at := some now } := by
  simp only [consumeAttempt] at hA
  split at hA
  · injection hA with h1 h2; exact Except.noConfusion h2
  · injection hA with h1 h2; exact Except.noConfusion h2
  · rename_i history heqget
    have hhist : history = h := by
      rcases hg : db.get1 with _ | mg
      · rw [hg] at heqget
        simp only [historyGetById] at heqget
        rw [hfound] at heqget
        exact (Option.some.inj (Except.ok.inj heqget)).symm
      · rw [hg] at heqget
        simp only [historyGetById] at heqget
        exact Except.noConfusion heqget
    subst hhist
    split at hA
    · injection hA with h1 h2; exact Except.noConfusion h2
    · split at hA
      · injection hA with h1 h2; exact Except.noConfusion h2
      · rename_i products2 total2 succ2 fail2 errs2 heqpfc
        split at hA
        · injection hA with h1 h2; exact Except.noConfusion h2
        · rename_i jobs2 a hequpd
          injection hA with h1 h2
          have hid : history.id = some i := getById_some_id hfound
          have hjobs := historyUpdate_ok_jobs hequpd
          refine ⟨toString succ2 ++ "/" ++ toString total2 ++
            " productos registrados", ?_⟩
          rw [← h1]
          simp only
          rw [hjobs, getById_updateFirst_self hfound (by simpa using hid)]
          simp [writeFields]

theorem recoverFailure_success {db : DbFaults} {now : Nat} {st' : SysState}
    {i m : String} {h : Job}
    (hfound : getById st'.jobs i = some h)
    (hg2 : db.get2 = none) (hupd2 : db.upd2 = none)
    (hv : validateHistory (recoveryJob h m now) = .ok ()) :
    (recoverFailure db now st' i m).jobs =
      updateFirst now (recoveryJob h m now) st'.jobs ∧
    getById (recoverFailure db now st' i m).jobs i =
      some (recoveryJob h m now) := by
  have hred : recoverFailure db now st' i m =
      { st' with jobs := updateFirst now (recoveryJob h m now) st'.jobs } := by
    unfold recoverFailure
    simp only [historyGetById, hg2, hfound]
    simp only [historyUpdate, hv, hupd2]
  constructor
  · rw [hred]
  · rw [hred]
    simp only
    rw [getById_updateFirst_self hfound
      (by simpa [recoveryJob] using getById_some_id hfound)]
    simp [writeFields, recoveryJob]

theorem recoverFailure_swallow {db : DbFaults} {now : Nat} {st' : SysState}
    {i m : String} {h : Job}
    (hfound : getById st'.jobs i = some h)
    (hfail : db.get2.isSome ∨ db.upd2.isSome ∨
      validateHistory (recoveryJob h m now) ≠ .ok ()) :
    recoverFailure db now st' i m = st' := by
  unfold recoverFailure
  rcases hg2 : db.get2 with _ | m2
  · simp only [historyGetById, hg2, hfound]
    rcases hv : validateHistory (recoveryJob h m now) with mv | u
    · simp [historyUpdate, hv]
    · cases u
      rcases hu2 : db.upd2 with _ | m2
      · exfalso
        rcases hfail with hf | hf | hf
        · rw [hg2] at hf; simp at hf
        · rw [hu2] at hf; simp at hf
        · exact hf hv
      · simp [historyUpdate, hv, hu2]
  · simp [historyGetById, hg2]

theorem recoverFailure_shape {db : DbFaults} {now : Nat} {st' : SysState}
    {i m : String} {h : Job}
    (hfound : getById st'.jobs i = some h) :
    recoverFailure db now st' i m = st' ∨
    getById (recoverFailure db now st' i m).jobs i =
      some (recoveryJob h m now) := by
  rcases hg2 : db.get2 with _ | m2
  · rcases hv : validateHistory (recoveryJob h m now) with mv | u
    · exact Or.inl (recoverFailure_swallow hfound (by simp [hv]))
    · cases u
      rcases hu2 : db.upd2 with _ | m2
      · exact Or.inr (recoverFailure_success hfound hg2 hu2 hv).2
      · exact Or.inl (recoverFailure_swallow hfound (by simp [hu2]))
  · exact Or.inl (recoverFailure_swallow hfound (by simp [hg2]))

/-- Claim C3: when the attempt raises with message `m` after the initial
lookup succeeded, the consumer re-raises `Error al procesar archivo: m`;
if the recovery fetch and update go through, the job is updated to
`Error` with `result = "Error: m"`; if the recovery fetch or update
itself raises (a database failure at either call, or the model
validation inside the update), the failure is swallowed and the Job
History Store is exactly as before the invocation (the job still
Pending when it was Pending). -/
theorem c3_error_recovery (env : ConsumerEnv) (db : DbFaults) (now : Nat)
    (st : SysState) (i : String) (h : Job) (stA : SysState) (m : String)
    (_hget1 : db.get1 = none)
    (hfound : getById st.jobs i = some h)
    (hA : consumeAttempt env db now st i = (stA, .error m)) :
    (processFileByHistoryId env db now st i).2 =
      .error ("Error al procesar archivo: " ++ m) ∧
    (db.get2 = none → db.upd2 = none →
      validateHistory (recoveryJob h m now) = .ok () →
      getById (processFileByHistoryId env db now st i).1.jobs i =
        some (recoveryJob h m now)) ∧
    ((db.get2.isSome ∨ db.upd2.isSome ∨
        validateHistory (recoveryJob h m now) ≠ .ok ()) →
      (processFileByHistoryId env db now st i).1.jobs = st.jobs) := by
  have hrun : processFileByHistoryId env db now st i =
      (recoverFailure db now stA i m,
       .error ("Error al procesar archivo: " ++ m)) := by
    unfold processFileByHistoryId
    rw [hA]
  have hjobsA : stA.jobs = st.jobs := consumeAttempt_error_jobs hA
  have hfoundA : getById stA.jobs i = some h := by rw [hjobsA]; exact hfound
  refine ⟨by rw [hrun], ?_, ?_⟩
  · intro hg2 hu2 hv
    rw [hrun]
    exact (recoverFailure_success hfoundA hg2 hu2 hv).2
  · intro hfail
    rw [hrun]
    show (recoverFailure db now stA i m).jobs = st.jobs
    rw [recoverFailure_swallow hfoundA hfail, hjobsA]

/-- Witness for C3 at a concrete failing download: the Pending job is
re-fetched and finalized `Error` with `result = "Error: boom"`, and the
service re-raises the wrapped message. -/
theorem c3_error_recovery_witness :
    (processFileByHistoryId cEnvDlFail noFaults 9 cStatePending "j1").2 =
      .error ("Error al procesar archivo: " ++ "boom") ∧
    getById (processFileByHistoryId cEnvDlFail noFaults 9 cStatePending
        "j1").1.jobs "j1" = some (recoveryJob cJobPending "boom" 9) := by
  have h := c3_error_recovery cEnvDlFail noFaults 9 cStatePending "j1"
    cJobPending cStatePending "boom" rfl (by decide) (by decide)
  exact ⟨h.1, h.2.1 rfl rfl (by decide)⟩

/-- Amended claim C2: the Submission Handler only ever appends a fresh
job with status `En curso` and no result (it never mutates an existing
record), and a single Import Consumer invocation either leaves a job
record untouched or writes it to `Finalizado` (with its summary) or to
`Error` (with `result = "Error: <message>"`), stamping `updated_at`; in
particular a Pending job only moves Pending→Finalized or Pending→Failed
within one invocation.  The consumer does not guard terminal states, so
across re-deliveries a Finalized or Failed job can be rewritten (see the
counterexample). -/
theorem c2_transition_discipline :
    (∀ (env : SubmitEnv) (now : Nat) (st : SubState)
        (fileArg : Option FileUpload) (userId : String),
      (importProductsFile env now st fileArg userId).1.jobs = st.jobs ∨
      ∃ j, (importProductsFile env now st fileArg userId).1.jobs =
          st.jobs ++ [j] ∧ j.status = "En curso" ∧ j.result = none) ∧
    (∀ (env : ConsumerEnv) (db : DbFaults) (now : Nat) (st : SysState)
        (i : String) (h : Job),
      getById st.jobs i = some h →
      getById (processFileByHistoryId env db now st i).1.jobs i = some h ∨
      (∃ msg, getById (processFileByHistoryId env db now st i).1.jobs i =
        some { h with status := "Finalizado", result := some msg,
                      updated_at := some now }) ∨
      (∃ msg, getById (processFileByHistoryId env db now st i).1.jobs i =
        some { h with status := "Error",
                      result := some ("Error: " ++ msg),
                      updated_at := some now })) := by
  constructor
  · intro env now st fileArg userId
    rcases fileArg with _ | f
    · left; rfl
    · simp only [importProductsFile]
      split
      · left; rfl
      · split
        · left; rfl
        · split
          · left; rfl
          · split
            · left; rfl
            · split
              · left; rfl
              · split
                · left; rfl
                · split
                  · left; rfl
                  · split
                    · left; rfl
                    · rename_i jobs2 job heqcreate
                      obtain ⟨hs, _, hst, hres, _, _⟩ :=
                        historyCreate_ok_shape heqcreate
                      have hstat : job.status = "En curso" := by
                        rw [hst]; rfl
                      have hresn : job.result = none := by
                        rw [hres]; rfl
                      split
                      · right
                        exact ⟨job, by simpa using hs, hstat, hresn⟩
                      · right
                        exact ⟨job, by simpa using hs, hstat, hresn⟩
  · intro env db now st i h hfound
    unfold processFileByHistoryId
    rcases hA : consumeAttempt env db now st i with ⟨stA, res⟩
    rcases res with m | r
    · have hjobsA := consumeAttempt_error_jobs hA
      have hfoundA : getById stA.jobs i = some h := by
        rw [hjobsA]; exact hfound
      rcases @recoverFailure_shape db now stA i m h hfoundA
        with hre | hre
      · left
        simp only
        rw [hre, hjobsA]
        exact hfound
      · right; right
        exact ⟨m, by simpa [recoveryJob] using hre⟩
    · simp only
      rcases consumeAttempt_ok_shape hfound hA with ⟨msg, hok⟩
      exact Or.inr (Or.inl ⟨msg, hok⟩)

/-- Witness for the amended C2: a single invocation on the concrete
Pending job lands in one of the three allowed shapes. -/
theorem c2_transition_discipline_witness :
    getById cStatePending.jobs "j1" = some cJobPending ∧
    (getById (processFileByHistoryId (mkConsumerEnv []) noFaults 7
        cStatePending "j1").1.jobs "j1" = some cJobPending ∨
    (∃ msg, getById (processFileByHistoryId (mkConsumerEnv []) noFaults 7
        cStatePending "j1").1.jobs "j1" =
      some { cJobPending with status := "Finalizado", result := some msg,
                              updated_at := some 7 }) ∨
    (∃ msg, getById (processFileByHistoryId (mkConsumerEnv []) noFaults 7
        cStatePending "j1").1.jobs "j1" =
      some { cJobPending with status := "Error",
                              result := some ("Error: " ++ msg),
                              updated_at := some 7 })) :=
  ⟨by decide, c2_transition_discipline.2 (mkConsumerEnv []) noFaults 7
    cStatePending "j1" cJobPending (by decide)⟩

/-- Counterexample to C2 as stated: the claim says no operation
transitions a job out of a terminal state and the outcome summary is set
exactly once; but re-invoking the consumer on a job already in the
terminal `Error` state (summary already set) rewrites it to `Finalizado`
and overwrites the summary. -/
theorem c2_counterexample :
    (getById cStateErr.jobs "j1").map Job.status = some "Error" ∧
    (getById cStateErr.jobs "j1").map Job.result =
      some (some "Error: boom") ∧
    ((getById (processFileByHistoryId (mkConsumerEnv []) noFaults 7
        cStateErr "j1").1.jobs "j1").map Job.status) = some "Finalizado" ∧
    ((getById (processFileByHistoryId (mkConsumerEnv []) noFaults 7
        cStateErr "j1").1.jobs "j1").map Job.result) =
      some (some "0/0 productos registrados") := by
  decide

theorem createProduct_ok_columns {env : ParseEnv} {row : Row} {p : Product}
    (hok : createProductFromRow env row = .ok p) :
    ∀ c ∈ requiredAccess, (rowGet row c).isSome := by
  simp only [createProductFromRow] at hok
  rcases h1 : rowGet row "expiration_date" with _ | dateCell
  · simp only [h1] at hok
    exact Except.noConfusion hok
  simp only [h1] at hok
  rcases h1p : parseDateCell env (strCell dateCell) dateCell with _ | d
  · simp only [h1p] at hok
    exact Except.noConfusion hok
  simp only [h1p] at hok
  rcases h2 : rowGet row "sku" with _ | skuCell
  · simp only [h2] at hok
    exact Except.noConfusion hok
  simp only [h2] at hok
  rcases h3 : rowGet row "name" with _ | nameCell
  · simp only [h3] at hok
    exact Except.noConfusion hok
  simp only [h3] at hok
  rcases h4 : rowGet row "quantity" with _ | qtyCell
  · simp only [h4] at hok
    exact Except.noConfusion hok
  simp only [h4] at hok
  rcases h4p : env.toInt qtyCell with mi | n
  · simp only [h4p] at hok
    exact Except.noConfusion hok
  simp only [h4p] at hok
  rcases h5 : rowGet row "price" with _ | priceCell
  · simp only [h5] at hok
    exact Except.noConfusion hok
  simp only [h5] at hok
  rcases h5p : env.toFloat priceCell with mf | q
  · simp only [h5p] at hok
    exact Except.noConfusion hok
  simp only [h5p] at hok
  rcases h6 : rowGet row "location" with _ | locCell
  · simp only [h6] at hok
    exact Except.noConfusion hok
  simp only [h6] at hok
  rcases h7 : rowGet row "product_type" with _ | typeCell
  · simp only [h7] at hok
    exact Except.noConfusion hok
  simp only [h7] at hok
  rcases h8 : rowGet row "provider_id" with _ | provCell
  · simp only [h8] at hok
    exact Except.noConfusion hok
  intro c hc
  fin_cases hc <;> simp [h1, h2, h3, h4, h5, h6, h7, h8]

/-- Amended claim C7: a data row lacking any of the required columns the
mapping reads with `row[...]` — expiry, code, name, quantity, price,
location, category, owner reference — always fails ingestion; when the
other required columns are present and their values parse, the failure
message cites exactly the missing column's name.  The `description`
column is the exception: the source reads it with `row.get`, so a file
lacking only the description column yields no per-row failure — the
description is treated as empty text and the row can succeed. -/
theorem c7_required_columns :
    (∀ (env : ParseEnv) (row : Row) (c : String), c ∈ requiredAccess →
      rowGet row c = none →
      ∃ m, createProductFromRow env row = .error m) ∧
    (∀ (env : ParseEnv) (row : Row) (c : String), c ∈ requiredAccess →
      rowGet row c = none →
      (∀ c2 ∈ requiredAccess, c2 ≠ c → (rowGet row c2).isSome) →
      (∀ cell, rowGet row "expiration_date" = some cell →
        (parseDateCell env (strCell cell) cell).isSome) →
      (∀ cell, rowGet row "quantity" = some cell →
        ∃ n, env.toInt cell = .ok n) →
      (∀ cell, rowGet row "price" = some cell →
        ∃ q, env.toFloat cell = .ok q) →
      createProductFromRow env row = .error (keyErrorMsg c)) ∧
    (∀ (env : ParseEnv) (row : Row),
      rowGet row "description" = none →
      (∀ c2 ∈ requiredAccess, (rowGet row c2).isSome) →
      (∀ cell, rowGet row "expiration_date" = some cell →
        (parseDateCell env (strCell cell) cell).isSome) →
      (∀ cell, rowGet row "quantity" = some cell →
        ∃ n, env.toInt cell = .ok n) →
      (∀ cell, rowGet row "price" = some cell →
        ∃ q, env.toFloat cell = .ok q) →
      ∃ p, createProductFromRow env row = .ok p ∧ p.description = "") := by
  refine ⟨?_, ?_, ?_⟩
  · intro env row c hc hmiss
    rcases hres : createProductFromRow env row with m | p
    · exact ⟨m, rfl⟩
    · have := createProduct_ok_columns hres c hc
      rw [hmiss] at this
      simp at this
  · intro env row c hc hmiss hothers hdate hint hfloat
    have hmem : ∀ s, s ∈ requiredAccess → s ≠ c →
        ∃ v, rowGet row s = some v := fun s hs hne =>
      Option.isSome_iff_exists.mp (hothers s hs hne)
    fin_cases hc
    · simp [createProductFromRow, hmiss]
    · obtain ⟨dc, hdc⟩ := hmem "expiration_date" (by simp [requiredAccess])
        (by decide)
      obtain ⟨d, hd⟩ := Option.isSome_iff_exists.mp (hdate dc hdc)
      simp [createProductFromRow, hdc, hd, hmiss]
    · obtain ⟨dc, hdc⟩ := hmem "expiration_date" (by simp [requiredAccess])
        (by decide)
      obtain ⟨d, hd⟩ := Option.isSome_iff_exists.mp (hdate dc hdc)
      obtain ⟨sc, hsc⟩ := hmem "sku" (by simp [requiredAccess]) (by decide)
      simp [createProductFromRow, hdc, hd, hsc, hmiss]
    · obtain ⟨dc, hdc⟩ := hmem "expiration_date" (by simp [requiredAccess])
        (by decide)
      obtain ⟨d, hd⟩ := Option.isSome_iff_exists.mp (hdate dc hdc)
      obtain ⟨sc, hsc⟩ := hmem "sku" (by simp [requiredAccess]) (by decide)
      obtain ⟨nc, hnc⟩ := hmem "name" (by simp [requiredAccess]) (by decide)
      simp [createProductFromRow, hdc, hd, hsc, hnc, hmiss]
    · obtain ⟨dc, hdc⟩ := hmem "expiration_date" (by simp [requiredAccess])
        (by decide)
      obtain ⟨d, hd⟩ := Option.isSome_iff_exists.mp (hdate dc hdc)
      obtain ⟨sc, hsc⟩ := hmem "sku" (by simp [requiredAccess]) (by decide)
      obtain ⟨nc, hnc⟩ := hmem "name" (by simp [requiredAccess]) (by decide)
      obtain ⟨qc, hqc⟩ := hmem "quantity" (by simp [requiredAccess])
        (by decide)
      obtain ⟨n, hn⟩ := hint qc hqc
      simp [createProductFromRow, hdc, hd, hsc, hnc, hqc, hn, hmiss]
    · obtain ⟨dc, hdc⟩ := hmem "expiration_date" (by simp [requiredAccess])
        (by decide)
      obtain ⟨d, hd⟩ := Option.isSome_iff_exists.mp (hdate dc hdc)
      obtain ⟨sc, hsc⟩ := hmem "sku" (by simp [requiredAccess]) (by decide)
      obtain ⟨nc, hnc⟩ := hmem "name" (by simp [requiredAccess]) (by decide)
      obtain ⟨qc, hqc⟩ := hmem "quantity" (by simp [requiredAccess])
        (by decide)
      obtain ⟨n, hn⟩ := hint qc hqc
      obtain ⟨pc, hpc⟩ := hmem "price" (by simp [requiredAccess]) (by decide)
      obtain ⟨q, hq⟩ := hfloat pc hpc
      simp [createProductFromRow, hdc, hd, hsc, hnc, hqc, hn, hpc, hq, hmiss]
    · obtain ⟨dc, hdc⟩ := hmem "expiration_date" (by simp [requiredAccess])
        (by decide)
      obtain ⟨d, hd⟩ := Option.isSome_iff_exists.mp (hdate dc hdc)
      obtain ⟨sc, hsc⟩ := hmem "sku" (by simp [requiredAccess]) (by decide)
      obtain ⟨nc, hnc⟩ := hmem "name" (by simp [requiredAccess]) (by decide)
      obtain ⟨qc, hqc⟩ := hmem "quantity" (by simp [requiredAccess])
        (by decide)
      obtain ⟨n, hn⟩ := hint qc hqc
      obtain ⟨pc, hpc⟩ := hmem "price" (by simp [requiredAccess]) (by decide)
      obtain ⟨q, hq⟩ := hfloat pc hpc
      obtain ⟨lc, hlc⟩ := hmem "location" (by simp [requiredAccess])
        (by decide)
      simp [createProductFromRow, hdc, hd, hsc, hnc, hqc, hn, hpc, hq, hlc,
        hmiss]
    · obtain ⟨dc, hdc⟩ := hmem "expiration_date" (by simp [requiredAccess])
        (by decide)
      obtain ⟨d, hd⟩ := Option.isSome_iff_exists.mp (hdate dc hdc)
      obtain ⟨sc, hsc⟩ := hmem "sku" (by simp [requiredAccess]) (by decide)
      obtain ⟨nc, hnc⟩ := hmem "name" (by simp [requiredAccess]) (by decide)
      obtain ⟨qc, hqc⟩ := hmem "quantity" (by simp [requiredAccess])
        (by decide)
      obtain ⟨n, hn⟩ := hint qc hqc
      obtain ⟨pc, hpc⟩ := hmem "price" (by simp [requiredAccess]) (by decide)
      obtain ⟨q, hq⟩ := hfloat pc hpc
      obtain ⟨lc, hlc⟩ := hmem "location" (by simp [requiredAccess])
        (by decide)
      obtain ⟨tc, htc⟩ := hmem "product_type" (by simp [requiredAccess])
        (by decide)
      simp [createProductFromRow, hdc, hd, hsc, hnc, hqc, hn, hpc, hq, hlc,
        htc, hmiss]
  · intro env row hdesc hall hdate hint hfloat
    have hmem : ∀ s, s ∈ requiredAccess → ∃ v, rowGet row s = some v :=
      fun s hs => Option.isSome_iff_exists.mp (hall s hs)
    obtain ⟨dc, hdc⟩ := hmem "expiration_date" (by simp [requiredAccess])
    obtain ⟨d, hd⟩ := Option.isSome_iff_exists.mp (hdate dc hdc)
    obtain ⟨sc, hsc⟩ := hmem "sku" (by simp [requiredAccess])
    obtain ⟨nc, hnc⟩ := hmem "name" (by simp [requiredAccess])
    obtain ⟨qc, hqc⟩ := hmem "quantity" (by simp [requiredAccess])
    obtain ⟨n, hn⟩ := hint qc hqc
    obtain ⟨pc, hpc⟩ := hmem "price" (by simp [requiredAccess])
    obtain ⟨q, hq⟩ := hfloat pc hpc
    obtain ⟨lc, hlc⟩ := hmem "location" (by simp [requiredAccess])
    obtain ⟨tc, htc⟩ := hmem "product_type" (by simp [requiredAccess])
    obtain ⟨prc, hprc⟩ := hmem "provider_id" (by simp [requiredAccess])
    rcases hres : createProductFromRow env row with m | p
    · simp [createProductFromRow, hdc, hd, hsc, hnc, hqc, hn, hpc, hq, hlc,
        htc, hprc] at hres
    · refine ⟨p, rfl, ?_⟩
      simp only [createProductFromRow, hdc, hd, hsc, hnc, hqc, hn, hpc, hq,
        hlc, htc, hprc] at hres
      have hp := Except.ok.inj hres
      rw [← hp]
      simp [descField, hdesc]

/-- Witness for the amended C7: a concrete row lacking only the `sku`
column fails ingestion, and the message cites `sku`. -/
theorem c7_required_columns_witness :
    rowGet cRowNoSku "sku" = none ∧
    createProductFromRow cParse cRowNoSku = .error (keyErrorMsg "sku") := by
  refine ⟨by decide, ?_⟩
  have h := c7_required_columns.2.1 cParse cRowNoSku "sku" (by decide)
    (by decide)
    (by intro c2 hc2 hne; fin_cases hc2 <;> simp_all <;> decide)
    (by intro cell hcell; rw [show cell = some "2026-01-01" by
          have : rowGet cRowNoSku "expiration_date" =
            some (some "2026-01-01") := by decide
          rw [this] at hcell
          exact (Option.some.inj hcell).symm]
        decide)
    (by intro cell hcell; rw [show cell = some "100" by
          have : rowGet cRowNoSku "quantity" = some (some "100") := by decide
          rw [this] at hcell
          exact (Option.some.inj hcell).symm]
        exact ⟨100, by decide⟩)
    (by intro cell hcell; rw [show cell = some "5" by
          have : rowGet cRowNoSku "price" = some (some "5") := by decide
          rw [this] at hcell
          exact (Option.some.inj hcell).symm]
        exact ⟨5, by decide⟩)
  exact h

/-- Counterexample to C7 as stated: the claim lists `description` among
the required columns whose absence must fail every data row, but a
concrete one-row file with no `description` column ingests its row
successfully (the description becomes empty text): `successful = 1`,
`failed = 0`, no error — not a per-row failure citing the column. -/
theorem c7_counterexample :
    rowGet cRowNoDesc "description" = none ∧
    processFileContent (mkConsumerEnv [cRowNoDesc]) [] "FILE"
        "products_u.csv" = .ok ([cProdNoDesc], 1, 1, 0, []) := by
  decide

end MediSupply
